import Mathlib

/-!
# fxsvc: the Windows service lifecycle coordinator

A shallow embedding of `fxsvc_windows.go`.  The program is concurrent: `Run`
executes the main sequence (Start, wait, Stop) while one background goroutine
runs either the registrar with the `Execute` handler or the `debug` loop.  The
embedding is a small-step interleaving semantics: every thread is a program
counter, one step of one thread is one atomic source statement, and an
execution is a list of scheduler actions.  Go's `select` chooses among the
ready cases, which is a scheduler choice here.
-/

namespace Fxsvc

/-! ## Boundary types of golang.org/x/sys/windows/svc -/

namespace svc

/-- Type `svc.State`, a `uint32` service state code. -/
abbrev State := Nat
/-- Type `svc.Cmd`, a `uint32` control request code. -/
abbrev Cmd := Nat
/-- Type `svc.Accepted`, a bit mask of accepted commands. -/
abbrev Accepted := Nat

abbrev Stopped : State := 1
abbrev StartPending : State := 2
abbrev StopPending : State := 3
abbrev Running : State := 4
abbrev ContinuePending : State := 5
abbrev PausePending : State := 6
abbrev Paused : State := 7

abbrev Stop : Cmd := 1
abbrev Pause : Cmd := 2
abbrev Continue : Cmd := 3
abbrev Interrogate : Cmd := 4
abbrev Shutdown : Cmd := 5

abbrev AcceptStop : Accepted := 1
abbrev AcceptShutdown : Accepted := 4

/-- Struct `svc.Status`; a field left out of a Go literal is zero. -/
structure Status where
  State : Nat := 0
  Accepts : Nat := 0
  CheckPoint : Nat := 0
  WaitHint : Nat := 0
  ProcessID : Nat := 0
  Win32ExitCode : Nat := 0
  ServiceSpecificExitCode : Nat := 0
  deriving DecidableEq

/-- Struct `svc.ChangeRequest`. -/
structure ChangeRequest where
  Cmd : Nat := 0
  EventType : Nat := 0
  EventData : Nat := 0
  CurrentStatus : Status := {}
  Context : Nat := 0
  deriving DecidableEq

end svc

/-! ## eventChannel -/

/-- Run-time panics of the Go runtime that the gate could raise. -/
inductive Panic
  | closeOfClosedChannel
  deriving DecidableEq

/-- A `chan struct{}` on which nothing is ever sent: its only state is whether
it has been closed.  `closeCalls` counts the executions of `close` that took
effect (history variable). -/
structure Chan where
  closed : Bool := false
  closeCalls : Nat := 0
  deriving DecidableEq

/-- The builtin `close(ch)`: closing a closed channel panics. -/
def Chan.close (c : Chan) : Except Panic Chan :=
  if c.closed then .error .closeOfClosedChannel
  else .ok { closed := true, closeCalls := c.closeCalls + 1 }

/-- A receive `<-ch` on a channel nobody sends on: it returns (the zero value)
once the channel is closed and blocks (`none`) before. -/
def Chan.recv (c : Chan) : Option Unit :=
  if c.closed then some () else none

/-- The `done` flag of `sync.Once`. -/
structure Once where
  done : Bool := false
  deriving DecidableEq

/-- Struct `eventChannel`: a channel and the `sync.Once` guarding its close. -/
structure eventChannel where
  ch : Chan := {}
  once : Once := {}
  deriving DecidableEq

/-- Function `newEventChannel`: an open channel and a fresh `Once`. -/
def newEventChannel : eventChannel := { ch := {}, once := {} }

/-- Method `eventChannel.wait`: `<-e.ch`; `none` means the caller blocks. -/
def eventChannel.wait (e : eventChannel) : Option Unit := e.ch.recv

/-- Method `eventChannel.signal`: `e.once.Do(func() { close(e.ch) })`.  `Do` runs
the function only when `done` is unset and sets `done`; it is mutex-guarded, so
the whole call is one atomic step. -/
def eventChannel.signal (e : eventChannel) : Except Panic eventChannel :=
  if e.once.done then .ok e
  else
    match e.ch.close with
    | .ok ch => .ok { ch := ch, once := { done := true } }
    | .error p => .error p

/-- Calling `signal` n times in a row. -/
def eventChannel.signalN : Nat → eventChannel → Except Panic eventChannel
  | 0, e => .ok e
  | n + 1, e =>
    match e.signal with
    | .ok e2 => eventChannel.signalN n e2
    | .error p => .error p

/-- Whether the gate has fired (its channel is closed). -/
def eventChannel.fired (e : eventChannel) : Bool := e.ch.closed

/-! ## serviceProgress -/

/-- Struct `serviceProgress`: the three gates. -/
structure serviceProgress where
  startPending : eventChannel := {}
  running : eventChannel := {}
  stopPending : eventChannel := {}
  deriving DecidableEq

/-- Function `newServiceProgress`. -/
def newServiceProgress : serviceProgress :=
  { startPending := newEventChannel, running := newEventChannel, stopPending := newEventChannel }

/-- Method `waitForStartPending`: wait on the started gate. -/
def serviceProgress.waitForStartPending (p : serviceProgress) : Option Unit := p.startPending.wait

/-- Method `waitForStopInitiation`: wait on the stop-request gate, `running`. -/
def serviceProgress.waitForStopInitiation (p : serviceProgress) : Option Unit := p.running.wait

/-- Method `waitForStopPending`: wait on the stopped gate. -/
def serviceProgress.waitForStopPending (p : serviceProgress) : Option Unit := p.stopPending.wait

/-- Method `signalStartPending`. -/
def serviceProgress.signalStartPending (p : serviceProgress) : Except Panic serviceProgress :=
  match p.startPending.signal with
  | .ok e => .ok { p with startPending := e }
  | .error x => .error x

/-- Method `signalStopInitiation`. -/
def serviceProgress.signalStopInitiation (p : serviceProgress) : Except Panic serviceProgress :=
  match p.running.signal with
  | .ok e => .ok { p with running := e }
  | .error x => .error x

/-- Method `signalStopPending`. -/
def serviceProgress.signalStopPending (p : serviceProgress) : Except Panic serviceProgress :=
  match p.stopPending.signal with
  | .ok e => .ok { p with stopPending := e }
  | .error x => .error x

/-- Method `serviceProgress.signalAll` run without interruption: the three
signals in source order. -/
def serviceProgress.signalAll (p : serviceProgress) : Except Panic serviceProgress :=
  match p.signalStartPending with
  | .error x => .error x
  | .ok p1 =>
    match p1.signalStopInitiation with
    | .error x => .error x
    | .ok p2 => p2.signalStopPending

/-- The three statements of `signalAll`; another goroutine may run between two
of them. -/
inductive SigStep
  | first
  | second
  | third
  deriving DecidableEq

/-- The statement of `signalAll` at a position. -/
def SigStep.run : SigStep → serviceProgress → Except Panic serviceProgress
  | .first, p => p.signalStartPending
  | .second, p => p.signalStopInitiation
  | .third, p => p.signalStopPending

/-! ## Errors, the application and the registrar -/

/-- A Go `error` value returned by the application or the registrar, by message. -/
abbrev Cause := String

/-- The two error kinds `Run` can return. -/
inductive ErrKind
  | ErrStartApplication
  | ErrStopApplication
  deriving DecidableEq

/-- An error built by `kind.WithDetails("err", err, "service", s.name)`. -/
structure FxError where
  kind : ErrKind
  err : Cause
  service : String
  deriving DecidableEq

/-- The calls `Run` makes on the `appRunner`. -/
inductive AppCall
  | Start
  | Stop
  deriving DecidableEq

/-- Everything fixed before `Run` is called: the fields of `FxServiceWin` and the
behaviour of its collaborators.
* `startErr`, `stopErr`: what `app.Start` and `app.Stop` return (`none` is nil;
  an expired timeout context is one more error);
* `invokes`: whether `svc.Run` calls `handler.Execute` before returning;
* `runErr`: what `svc.Run` returns;
* `queued`: the requests already in the `requests` channel when `Execute`
  starts, `later`: the requests the manager sends afterwards, in order;
* `sigQueued`: whether `osSignalChan` (capacity 1) already holds a signal. -/
structure Config where
  name : String := ""
  isDebug : Bool := false
  startErr : Option Cause := none
  stopErr : Option Cause := none
  invokes : Bool := true
  runErr : Option Cause := none
  queued : List svc.ChangeRequest := []
  later : List svc.ChangeRequest := []
  sigQueued : Bool := false

/-! ## Program counters -/

/-- Where the main sequence (`Run`, with `start` and `stop` inlined) stands.
`sigAll k r` is statement `k` of the `signalAll` on the failure path of `start`
or `stop`, with `r` the error to return; `join r` is the deferred `s.eg.Wait()`. -/
inductive MainPc
  | spawn
  | callStart
  | sigStarted
  | waitStop
  | callStop
  | sigStopped
  | sigAll (k : SigStep) (r : Option FxError)
  | join (r : Option FxError)
  | returned (r : Option FxError)
  deriving DecidableEq

/-- Where the background goroutine stands: in the registrar closure (`svcRun`,
`svcReturn`, `sigAll`), in `Execute` (`exec...`) or in `debug` (`dbg...`). -/
inductive BgPc
  | notSpawned
  | svcRun
  | execStartPending
  | execWaitStarted
  | execRunning
  | execLoop
  | execStopPending
  | execSignalStop
  | execWaitStopped
  | svcReturn
  | sigAll (k : SigStep)
  | dbgWaitStarted
  | dbgNotify
  | dbgSelect
  | dbgSignalStop
  | dbgWaitStopped
  | done
  deriving DecidableEq

/-- The state of one run.  `changes` is what has been sent on the `changes`
channel (a send never blocks: the manager, or the test's buffer of 100, takes
it); `requests` is the content of the `requests` channel and `pending` what the
manager has still to send; `handled` records the requests `Execute` received
and `stopObserved` that `waitForStopInitiation` returned (history variables);
`panicked` is set when a goroutine panics, which ends the process. -/
structure Sys where
  progress : serviceProgress := newServiceProgress
  main : MainPc := .spawn
  bg : BgPc := .notSpawned
  calls : List AppCall := []
  changes : List svc.Status := []
  requests : List svc.ChangeRequest := []
  pending : List svc.ChangeRequest := []
  handled : List svc.ChangeRequest := []
  osSignalChan : Nat := 0
  notified : Bool := false
  svcRunCalls : Nat := 0
  stopObserved : Bool := false
  panicked : Bool := false
  deriving DecidableEq

/-- The state `newFxService` builds, at the call of `Run`. -/
def Sys.init (c : Config) : Sys :=
  { progress := newServiceProgress
    requests := c.queued
    pending := c.later
    osSignalChan := if c.sigQueued then 1 else 0 }

/-- One statement of `signalAll` (or a single signal) applied to the state. -/
def Sys.fire (s : Sys) (k : SigStep) : Sys :=
  match k.run s.progress with
  | .ok p => { s with progress := p }
  | .error _ => { s with panicked := true }

/-- The literal `svc.Status{State: svc.StartPending}`. -/
def stStartPending : svc.Status := { State := svc.StartPending }

/-- The literal `svc.Status{State: svc.Running, Accepts: svc.AcceptStop | svc.AcceptShutdown}`. -/
def stRunning : svc.Status :=
  { State := svc.Running, Accepts := svc.AcceptStop ||| svc.AcceptShutdown }

/-- The literal `svc.Status{State: svc.StopPending}`. -/
def stStopPending : svc.Status := { State := svc.StopPending }

/-! ## The threads -/

/-- One step of the main sequence, `FxServiceWin.Run` with `start` and `stop`. -/
def stepRun (c : Config) (s : Sys) : Option Sys :=
  match s.main with
  | .spawn =>
    -- s.eg.Go(...): the debug loop or the registrar closure.  In managed mode Run
    -- first registers a channel of its own for OS signals and starts a goroutine
    -- that only drains it: neither touches the state modelled here.
    if c.isDebug then some { s with main := .callStart, bg := .dbgWaitStarted }
    else some { s with main := .callStart, bg := .svcRun }
  | .callStart =>
    -- start: err := s.app.Start(ctx)
    match c.startErr with
    | some e =>
      some { s with calls := s.calls ++ [.Start],
                    main := .sigAll .first (some ⟨.ErrStartApplication, e, c.name⟩) }
    | none => some { s with calls := s.calls ++ [.Start], main := .sigStarted }
  | .sigStarted =>
    -- start: s.progress.signalStartPending(); return nil
    some { s.fire .first with main := .waitStop }
  | .waitStop =>
    -- s.progress.waitForStopInitiation()
    match s.progress.waitForStopInitiation with
    | some _ => some { s with main := .callStop, stopObserved := true }
    | none => none
  | .callStop =>
    -- stop: err := s.app.Stop(ctx)
    match c.stopErr with
    | some e =>
      some { s with calls := s.calls ++ [.Stop],
                    main := .sigAll .first (some ⟨.ErrStopApplication, e, c.name⟩) }
    | none => some { s with calls := s.calls ++ [.Stop], main := .sigStopped }
  | .sigStopped =>
    -- stop: s.progress.signalStopPending(); return nil
    some { s.fire .third with main := .join none }
  -- s.progress.signalAll(), statement by statement; then return the error
  | .sigAll .first r => some { s.fire .first with main := .sigAll .second r }
  | .sigAll .second r => some { s.fire .second with main := .sigAll .third r }
  | .sigAll .third r => some { s.fire .third with main := .join r }
  | .join r =>
    -- defer s.eg.Wait()
    if s.bg = .done then some { s with main := .returned r } else none
  | .returned _ => none

/-- One iteration of the `select` in `Execute`.  `preferFirst` is the choice Go
makes when both cases are ready.  The `requests` channel is not closed while
`Run` executes (the test closes it after `Run` has returned), so a receive
takes a request that was sent or blocks. -/
def stepExecuteLoop (preferFirst : Bool) (s : Sys) : Option Sys :=
  match s.requests with
  | r :: rest =>
    if preferFirst || !s.progress.running.ch.closed then
      -- case c := <-requests
      let s1 := { s with requests := rest, handled := s.handled ++ [r] }
      if r.Cmd = svc.Interrogate then
        some { s1 with changes := s1.changes ++ [r.CurrentStatus] }
      else if r.Cmd = svc.Stop ∨ r.Cmd = svc.Shutdown then
        some { s1 with bg := .execStopPending }
      else
        some s1
    else
      -- case <-s.progress.running.ch
      some { s with bg := .execStopPending }
  | [] =>
    if s.progress.running.ch.closed then some { s with bg := .execStopPending } else none

/-- One step of the background goroutine: the closure around `s.svc.Run` with
`FxServiceWin.Execute`, or `FxServiceWin.debug`. -/
def stepBackground (c : Config) (preferFirst : Bool) (s : Sys) : Option Sys :=
  match s.bg with
  | .notSpawned => none
  | .svcRun =>
    -- err := s.svc.Run(s.name, s)
    if c.invokes then some { s with svcRunCalls := s.svcRunCalls + 1, bg := .execStartPending }
    else some { s with svcRunCalls := s.svcRunCalls + 1, bg := .svcReturn }
  | .execStartPending =>
    some { s with changes := s.changes ++ [stStartPending], bg := .execWaitStarted }
  | .execWaitStarted =>
    match s.progress.waitForStartPending with
    | some _ => some { s with bg := .execRunning }
    | none => none
  | .execRunning =>
    some { s with changes := s.changes ++ [stRunning], bg := .execLoop }
  | .execLoop => stepExecuteLoop preferFirst s
  | .execStopPending =>
    some { s with changes := s.changes ++ [stStopPending], bg := .execSignalStop }
  | .execSignalStop =>
    some { s.fire .second with bg := .execWaitStopped }
  | .execWaitStopped =>
    match s.progress.waitForStopPending with
    | some _ => some { s with bg := .svcReturn }
    | none => none
  | .svcReturn =>
    -- if err != nil { s.progress.signalAll(); ... }; return nil
    match c.runErr with
    | some _ => some { s with bg := .sigAll .first }
    | none => some { s with bg := .done }
  | .sigAll .first => some { s.fire .first with bg := .sigAll .second }
  | .sigAll .second => some { s.fire .second with bg := .sigAll .third }
  | .sigAll .third => some { s.fire .third with bg := .done }
  | .dbgWaitStarted =>
    match s.progress.waitForStartPending with
    | some _ => some { s with bg := .dbgNotify }
    | none => none
  | .dbgNotify =>
    -- s.signalHandler(s.osSignalChan)
    some { s with notified := true, bg := .dbgSelect }
  | .dbgSelect =>
    if 0 < s.osSignalChan ∧ (preferFirst ∨ s.progress.running.ch.closed = false) then
      -- case <-s.osSignalChan
      some { s with osSignalChan := s.osSignalChan - 1, bg := .dbgSignalStop }
    else if s.progress.running.ch.closed then
      -- case <-s.progress.running.ch
      some { s with bg := .dbgSignalStop }
    else none
  | .dbgSignalStop =>
    some { s.fire .second with bg := .dbgWaitStopped }
  | .dbgWaitStopped =>
    match s.progress.waitForStopPending with
    | some _ => some { s with bg := .done }
    | none => none
  | .done => none

/-- What the scheduler or the environment does next. -/
inductive Action
  | main
  | bg (preferFirst : Bool)
  | deliver
  | osSignal
  deriving DecidableEq

/-- One step of the whole system; `none` when the action is not enabled.
`deliver`: the manager sends its next request; `osSignal`: a termination signal
arrives on the registered `osSignalChan` (dropped, so no step, when the buffer
of 1 is full). -/
def step (c : Config) (a : Action) (s : Sys) : Option Sys :=
  if s.panicked then none
  else
    match a with
    | .main => stepRun c s
    | .bg b => stepBackground c b s
    | .deliver =>
      match s.pending with
      | r :: rest => some { s with pending := rest, requests := s.requests ++ [r] }
      | [] => none
    | .osSignal =>
      if s.notified ∧ s.osSignalChan = 0 then some { s with osSignalChan := 1 } else none

/-- Running a schedule from a state; `none` when some action is not enabled. -/
def execFrom (c : Config) : List Action → Sys → Option Sys
  | [], s => some s
  | a :: as, s =>
    match step c a s with
    | some s2 => execFrom c as s2
    | none => none

/-- Running a schedule from the start of `Run`. -/
def exec (c : Config) (sched : List Action) : Option Sys := execFrom c sched (Sys.init c)

/-- The states of the statuses sent so far, as the test reads them. -/
def Sys.states (s : Sys) : List Nat := s.changes.map (fun st => st.State)

/-- The only state a gate can be in after a signal. -/
def firedGate : eventChannel :=
  { ch := { closed := true, closeCalls := 1 }, once := { done := true } }

/-- A gate is either as `newEventChannel` built it or fired. -/
def eventChannel.wf (e : eventChannel) : Prop := e = newEventChannel ∨ e = firedGate

/-! ## Invariants of the main sequence -/

/-- What holds of the result `r` that `Run` is about to return. -/
def resOK (c : Config) (r : Option FxError) (calls : List AppCall) (obs : Bool) : Prop :=
  match c.startErr with
  | some e => r = some ⟨.ErrStartApplication, e, c.name⟩ ∧ calls = [.Start] ∧ obs = false
  | none =>
    calls = [.Start, .Stop] ∧ obs = true ∧
    match c.stopErr with
    | some e => r = some ⟨.ErrStopApplication, e, c.name⟩
    | none => r = none

/-- The calls made and the wait passed, by position of the main sequence. -/
def mainOK (c : Config) (s : Sys) : Prop :=
  match s.main with
  | .spawn => s.calls = [] ∧ s.stopObserved = false
  | .callStart => s.calls = [] ∧ s.stopObserved = false
  | .sigStarted => c.startErr = none ∧ s.calls = [.Start] ∧ s.stopObserved = false
  | .waitStop => c.startErr = none ∧ s.calls = [.Start] ∧ s.stopObserved = false
  | .callStop => c.startErr = none ∧ s.calls = [.Start] ∧ s.stopObserved = true
  | .sigStopped =>
    c.startErr = none ∧ c.stopErr = none ∧ s.calls = [.Start, .Stop] ∧ s.stopObserved = true
  | .sigAll _ r => resOK c r s.calls s.stopObserved
  | .join r => resOK c r s.calls s.stopObserved
  | .returned r => resOK c r s.calls s.stopObserved

/-- First invariant: no panic, gates well formed, main sequence consistent. -/
structure InvA (c : Config) (s : Sys) : Prop where
  noPanic : s.panicked = false
  wfStart : s.progress.startPending.wf
  wfRun : s.progress.running.wf
  wfStop : s.progress.stopPending.wf
  mainOk : mainOK c s

/-! ## Gates against program counters -/

/-- The started gate, `progress.startPending`, has fired. -/
abbrev Sys.SF (s : Sys) : Bool := s.progress.startPending.ch.closed
/-- The stop-request gate, `progress.running`, has fired. -/
abbrev Sys.RF (s : Sys) : Bool := s.progress.running.ch.closed
/-- The stopped gate, `progress.stopPending`, has fired. -/
abbrev Sys.PF (s : Sys) : Bool := s.progress.stopPending.ch.closed

/-- The position agrees with the mode and the registrar of the configuration. -/
def BgPc.modeOK (c : Config) : BgPc → Bool
  | .notSpawned => true
  | .svcRun => !c.isDebug
  | .execStartPending => !c.isDebug && c.invokes
  | .execWaitStarted => !c.isDebug && c.invokes
  | .execRunning => !c.isDebug && c.invokes
  | .execLoop => !c.isDebug && c.invokes
  | .execStopPending => !c.isDebug && c.invokes
  | .execSignalStop => !c.isDebug && c.invokes
  | .execWaitStopped => !c.isDebug && c.invokes
  | .svcReturn => !c.isDebug
  | .sigAll .first => !c.isDebug && c.runErr.isSome
  | .sigAll .second => !c.isDebug && c.runErr.isSome
  | .sigAll .third => !c.isDebug && c.runErr.isSome
  | .dbgWaitStarted => c.isDebug
  | .dbgNotify => c.isDebug
  | .dbgSelect => c.isDebug
  | .dbgSignalStop => c.isDebug
  | .dbgWaitStopped => c.isDebug
  | .done => true

/-- A finished background goroutine that fired or saw all three gates. -/
def Config.bgFires (c : Config) : Bool := c.isDebug || c.invokes || c.runErr.isSome

/-- Background positions at which the started gate has fired. -/
def BgPc.needSF (c : Config) : BgPc → Bool
  | .notSpawned => false
  | .svcRun => false
  | .execStartPending => false
  | .execWaitStarted => false
  | .execRunning => true
  | .execLoop => true
  | .execStopPending => true
  | .execSignalStop => true
  | .execWaitStopped => true
  | .svcReturn => c.invokes
  | .sigAll .first => c.invokes
  | .sigAll .second => true
  | .sigAll .third => true
  | .dbgWaitStarted => false
  | .dbgNotify => true
  | .dbgSelect => true
  | .dbgSignalStop => true
  | .dbgWaitStopped => true
  | .done => c.bgFires

/-- Background positions at which the stop-request gate has fired. -/
def BgPc.needRF (c : Config) : BgPc → Bool
  | .notSpawned => false
  | .svcRun => false
  | .execStartPending => false
  | .execWaitStarted => false
  | .execRunning => false
  | .execLoop => false
  | .execStopPending => false
  | .execSignalStop => false
  | .execWaitStopped => true
  | .svcReturn => c.invokes
  | .sigAll .first => c.invokes
  | .sigAll .second => c.invokes
  | .sigAll .third => true
  | .dbgWaitStarted => false
  | .dbgNotify => false
  | .dbgSelect => false
  | .dbgSignalStop => false
  | .dbgWaitStopped => true
  | .done => c.bgFires

/-- Background positions at which the stopped gate has fired. -/
def BgPc.needPF (c : Config) : BgPc → Bool
  | .notSpawned => false
  | .svcRun => false
  | .execStartPending => false
  | .execWaitStarted => false
  | .execRunning => false
  | .execLoop => false
  | .execStopPending => false
  | .execSignalStop => false
  | .execWaitStopped => false
  | .svcReturn => c.invokes
  | .sigAll .first => c.invokes
  | .sigAll .second => c.invokes
  | .sigAll .third => c.invokes
  | .dbgWaitStarted => false
  | .dbgNotify => false
  | .dbgSelect => false
  | .dbgSignalStop => false
  | .dbgWaitStopped => false
  | .done => c.bgFires

/-- Main positions at which the started gate has fired. -/
def MainPc.needSF : MainPc → Bool
  | .spawn => false
  | .callStart => false
  | .sigStarted => false
  | .waitStop => true
  | .callStop => true
  | .sigStopped => true
  | .sigAll .first _ => false
  | .sigAll .second _ => true
  | .sigAll .third _ => true
  | .join _ => true
  | .returned _ => true

/-- Main positions at which the stop-request gate has fired. -/
def MainPc.needRF : MainPc → Bool
  | .spawn => false
  | .callStart => false
  | .sigStarted => false
  | .waitStop => false
  | .callStop => true
  | .sigStopped => true
  | .sigAll .first _ => false
  | .sigAll .second _ => false
  | .sigAll .third _ => true
  | .join _ => true
  | .returned _ => true

/-- Main positions at which the stopped gate has fired. -/
def MainPc.needPF : MainPc → Bool
  | .spawn => false
  | .callStart => false
  | .sigStarted => false
  | .waitStop => false
  | .callStop => false
  | .sigStopped => false
  | .sigAll .first _ => false
  | .sigAll .second _ => false
  | .sigAll .third _ => false
  | .join _ => true
  | .returned _ => true

/-- Background positions past the first statement of the `signalAll` in the registrar
closure. -/
def BgPc.afterFirst : BgPc → Bool
  | .notSpawned => false
  | .svcRun => false
  | .execStartPending => false
  | .execWaitStarted => false
  | .execRunning => false
  | .execLoop => false
  | .execStopPending => false
  | .execSignalStop => false
  | .execWaitStopped => false
  | .svcReturn => false
  | .sigAll .first => false
  | .sigAll .second => true
  | .sigAll .third => true
  | .dbgWaitStarted => false
  | .dbgNotify => false
  | .dbgSelect => false
  | .dbgSignalStop => false
  | .dbgWaitStopped => false
  | .done => true

/-- Background positions at or after the `Running` report of `Execute`. -/
def BgPc.sawStart (c : Config) : BgPc → Bool
  | .notSpawned => false
  | .svcRun => false
  | .execStartPending => false
  | .execWaitStarted => false
  | .execRunning => true
  | .execLoop => true
  | .execStopPending => true
  | .execSignalStop => true
  | .execWaitStopped => true
  | .svcReturn => !c.isDebug && c.invokes
  | .sigAll .first => !c.isDebug && c.invokes
  | .sigAll .second => !c.isDebug && c.invokes
  | .sigAll .third => !c.isDebug && c.invokes
  | .dbgWaitStarted => false
  | .dbgNotify => false
  | .dbgSelect => false
  | .dbgSignalStop => false
  | .dbgWaitStopped => false
  | .done => !c.isDebug && c.invokes

/-- Second invariant: which gates have fired at which positions, and who fired
them. -/
@[mk_iff invB_iff]
structure InvB (c : Config) (s : Sys) : Prop where
  spawned : s.main = .spawn ↔ s.bg = .notSpawned
  joined : ∀ r, s.main = .returned r → s.bg = .done
  mode : s.bg.modeOK c = true
  bgSF : s.bg.needSF c = true → s.SF = true
  bgRF : s.bg.needRF c = true → s.RF = true
  bgPF : s.bg.needPF c = true → s.PF = true
  mainSF : s.main.needSF = true → s.SF = true
  mainRF : s.main.needRF = true → s.RF = true
  mainPF : s.main.needPF = true → s.PF = true
  obsRF : s.stopObserved = true → s.RF = true
  whoStart : s.SF = true → s.calls ≠ [] ∨ s.bg.afterFirst = true
  sawStart : s.bg.sawStart c = true → s.calls ≠ []
  whoStop : s.PF = true →
    s.stopObserved = true ∨ c.startErr.isSome = true ∨
      (c.runErr.isSome = true ∧ c.isDebug = false ∧ c.invokes = false)
  startFirst : s.RF = true → s.SF = true
  stopLast : s.PF = true → s.RF = true

/-! ## What has been sent on `changes` -/

/-- A request that ends the loop of `Execute`: `case svc.Stop, svc.Shutdown`. -/
def isStop (r : svc.ChangeRequest) : Prop := r.Cmd = svc.Stop ∨ r.Cmd = svc.Shutdown

instance (r : svc.ChangeRequest) : Decidable (isStop r) := by
  unfold isStop
  exact inferInstance

/-- The replies of `Execute` to a list of received requests: `c.CurrentStatus` of
each `Interrogate`, nothing for any other command. -/
def echoes (rs : List svc.ChangeRequest) : List svc.Status :=
  rs.filterMap (fun r => if r.Cmd = svc.Interrogate then some r.CurrentStatus else none)

/-- What `Execute` has sent when it is past its loop, having received `rs`. -/
def fullReport (rs : List svc.ChangeRequest) : List svc.Status :=
  stStartPending :: stRunning :: (echoes rs ++ [stStopPending])

/-- The content of `changes` by position of the background goroutine. -/
def shapeOf (c : Config) (rs : List svc.ChangeRequest) : BgPc → List svc.Status
  | .notSpawned => []
  | .svcRun => []
  | .execStartPending => []
  | .execWaitStarted => [stStartPending]
  | .execRunning => [stStartPending]
  | .execLoop => stStartPending :: stRunning :: echoes rs
  | .execStopPending => stStartPending :: stRunning :: echoes rs
  | .execSignalStop => fullReport rs
  | .execWaitStopped => fullReport rs
  | .svcReturn => if c.invokes then fullReport rs else []
  | .sigAll _ => if c.invokes then fullReport rs else []
  | .dbgWaitStarted => []
  | .dbgNotify => []
  | .dbgSelect => []
  | .dbgSignalStop => []
  | .dbgWaitStopped => []
  | .done => if !c.isDebug && c.invokes then fullReport rs else []

/-- Positions before the loop of `Execute` is entered. -/
def BgPc.beforeLoop : BgPc → Bool
  | .notSpawned => true
  | .svcRun => true
  | .execStartPending => true
  | .execWaitStarted => true
  | .execRunning => true
  | .execLoop => false
  | .execStopPending => false
  | .execSignalStop => false
  | .execWaitStopped => false
  | .svcReturn => false
  | .sigAll _ => false
  | .dbgWaitStarted => false
  | .dbgNotify => false
  | .dbgSelect => false
  | .dbgSignalStop => false
  | .dbgWaitStopped => false
  | .done => false

/-- Positions of `debug` up to its `select`. -/
def BgPc.beforeSelect : BgPc → Bool
  | .notSpawned => true
  | .svcRun => false
  | .execStartPending => false
  | .execWaitStarted => false
  | .execRunning => false
  | .execLoop => false
  | .execStopPending => false
  | .execSignalStop => false
  | .execWaitStopped => false
  | .svcReturn => false
  | .sigAll _ => false
  | .dbgWaitStarted => true
  | .dbgNotify => true
  | .dbgSelect => true
  | .dbgSignalStop => false
  | .dbgWaitStopped => false
  | .done => false

/-- Third invariant: the statuses sent, the requests received, the signal
buffer and the calls of the registrar. -/
@[mk_iff invC_iff]
structure InvC (c : Config) (s : Sys) : Prop where
  shape : s.changes = shapeOf c s.handled s.bg
  conserve : s.handled ++ (s.requests ++ s.pending) = c.queued ++ c.later
  fresh : s.bg.beforeLoop = true → s.handled = []
  inLoop : s.bg = .execLoop → ∀ r ∈ s.handled, ¬ isStop r
  sigCap : s.osSignalChan ≤ 1
  sigKept : c.sigQueued = true → s.bg.beforeSelect = true → s.osSignalChan = 1
  noSvc : c.isDebug = true → s.svcRunCalls = 0
  notif : s.bg = .dbgSelect → s.notified = true

/-- The three invariants together. -/
structure Inv (c : Config) (s : Sys) : Prop where
  a : InvA c s
  b : InvB c s
  c : InvC c s

/-! ## Why `Execute` leaves its loop when `app.Start` succeeds -/

/-- The requests received end with the first `Stop` or `Shutdown`. -/
def endsWithStop (rs : List svc.ChangeRequest) : Prop :=
  ∃ h x, rs = h ++ [x] ∧ isStop x ∧ ∀ r ∈ h, ¬ isStop r

/-- Positions of the background goroutine up to the signal of `Execute`. -/
def BgPc.early : BgPc → Bool
  | .notSpawned => true
  | .svcRun => true
  | .execStartPending => true
  | .execWaitStarted => true
  | .execRunning => true
  | .execLoop => true
  | .execStopPending => true
  | .execSignalStop => true
  | .execWaitStopped => false
  | .svcReturn => false
  | .sigAll _ => false
  | .dbgWaitStarted => false
  | .dbgNotify => false
  | .dbgSelect => false
  | .dbgSignalStop => false
  | .dbgWaitStopped => false
  | .done => false

/-- Positions after the loop of `Execute`. -/
def BgPc.pastLoop (c : Config) : BgPc → Bool
  | .notSpawned => false
  | .svcRun => false
  | .execStartPending => false
  | .execWaitStarted => false
  | .execRunning => false
  | .execLoop => false
  | .execStopPending => true
  | .execSignalStop => true
  | .execWaitStopped => true
  | .svcReturn => c.invokes
  | .sigAll _ => c.invokes
  | .dbgWaitStarted => false
  | .dbgNotify => false
  | .dbgSelect => false
  | .dbgSignalStop => false
  | .dbgWaitStopped => false
  | .done => !c.isDebug && c.invokes

/-- Fourth invariant, for a successful Start: nothing fires the stop-request
gate before `Execute` does, so `Execute` leaves its loop on a `Stop` or
`Shutdown` request only. -/
@[mk_iff invK_iff]
structure InvK (c : Config) (s : Sys) : Prop where
  early : s.bg.early = true → s.RF = false
  ended : s.bg.pastLoop c = true → endsWithStop s.handled

/-! ## Termination and blocked states -/

/-- Statements the main sequence has still to run, at most. -/
def MainPc.rank : MainPc → Nat
  | .spawn => 10
  | .callStart => 9
  | .sigStarted => 8
  | .waitStop => 7
  | .callStop => 6
  | .sigStopped => 5
  | .sigAll .first _ => 4
  | .sigAll .second _ => 3
  | .sigAll .third _ => 2
  | .join _ => 1
  | .returned _ => 0

/-- Statements the background goroutine has still to run, at most, the
iterations of the loop of `Execute` apart. -/
def BgPc.rank : BgPc → Nat
  | .notSpawned => 14
  | .svcRun => 13
  | .execStartPending => 12
  | .execWaitStarted => 11
  | .execRunning => 10
  | .execLoop => 9
  | .execStopPending => 8
  | .execSignalStop => 7
  | .execWaitStopped => 6
  | .svcReturn => 5
  | .sigAll .first => 4
  | .sigAll .second => 3
  | .sigAll .third => 2
  | .dbgWaitStarted => 8
  | .dbgNotify => 7
  | .dbgSelect => 6
  | .dbgSignalStop => 4
  | .dbgWaitStopped => 3
  | .done => 0

/-- A bound on the number of steps left: every step makes it smaller. -/
def Sys.measure (s : Sys) : Nat :=
  s.main.rank + s.bg.rank + 2 * s.pending.length + s.requests.length +
    (if s.osSignalChan = 0 then 1 else 0)

/-! ## The scenarios of `TestFxServiceWin_Run` -/

/-- The five requests the mock registrar queues before it calls `Execute`. -/
def testRequests : List svc.ChangeRequest :=
  [ { Cmd := svc.Interrogate, CurrentStatus := { State := svc.Running } },
    { Cmd := svc.Interrogate, CurrentStatus := { State := svc.Running } },
    { Cmd := svc.Interrogate, CurrentStatus := { State := svc.Running } },
    { Cmd := 999, CurrentStatus := { State := svc.Running } },
    { Cmd := svc.Stop } ]

/-- Test case `success1`. -/
def cfgSuccess : Config := { name := "testService", queued := testRequests }

/-- Test case `run_error_after`: the registrar fails after `Execute` returned. -/
def cfgRunErrorAfter : Config :=
  { name := "testService", queued := testRequests, runErr := some "error occurred" }

/-- Test case `run_error_before`: the registrar fails without calling `Execute`. -/
def cfgRunErrorBefore : Config :=
  { name := "testService", invokes := false, runErr := some "error occurred" }

/-- Test case `start_error`. -/
def cfgStartError : Config :=
  { name := "testService", queued := testRequests, startErr := some "error occurred" }

/-- Test case `stop_error`. -/
def cfgStopError : Config :=
  { name := "testService", queued := testRequests, stopErr := some "error occurred" }

/-- Test case `success` of `TestFxServiceWin_Run_debug`: a signal is put in
`osSignalChan` before `Run`. -/
def cfgDebug : Config := { name := "testService", isDebug := true, sigQueued := true }

/-- A schedule with `n` steps of the background goroutine (taking the first
ready `select` case) . -/
def bgSteps (n : Nat) : List Action := List.replicate n (.bg true)

/-- A schedule with `n` steps of the main sequence. -/
def mainSteps (n : Nat) : List Action := List.replicate n .main

/-- The main sequence runs up to its wait, the registrar and `Execute` run until
they wait for the stopped gate (`b` steps), the main sequence stops the
application (`m` steps), the background goroutine finishes (`k` steps) and `Run`
returns. -/
def schedManaged (b m k : Nat) : List Action :=
  mainSteps 3 ++ bgSteps b ++ mainSteps m ++ bgSteps k ++ mainSteps 1

/-- All three gates fired. -/
def allFired : serviceProgress :=
  { startPending := firedGate, running := firedGate, stopPending := firedGate }

/-- The state a managed test scenario ends in when `Execute` received the five
requests: `Run` has returned `r` after the calls `calls`. -/
def endManaged (r : Option FxError) (calls : List AppCall) (obs : Bool) : Sys :=
  { progress := allFired, main := .returned r, bg := .done, calls := calls,
    changes := fullReport testRequests, handled := testRequests, svcRunCalls := 1,
    stopObserved := obs }

/-- The value `Run` returns, from what `app.Start` and `app.Stop` return. -/
def expectedResult (c : Config) : Option FxError :=
  match c.startErr, c.stopErr with
  | some e, _ => some ⟨.ErrStartApplication, e, c.name⟩
  | none, some e => some ⟨.ErrStopApplication, e, c.name⟩
  | none, none => none

/-- A request stream with an `Interrogate` carrying the status `Paused`. -/
def cfgPaused : Config :=
  { name := "testService"
    queued := [ { Cmd := svc.Interrogate, CurrentStatus := { State := svc.Paused } },
                { Cmd := svc.Stop } ] }

/-- The end of the run with the `Paused` interrogation. -/
def endPaused : Sys :=
  { progress := allFired, main := .returned none, bg := .done, calls := [.Start, .Stop],
    changes := [stStartPending, stRunning, { State := svc.Paused }, stStopPending],
    handled := cfgPaused.queued, svcRunCalls := 1, stopObserved := true }

/-- The `start_error` scenario when `Execute` has just reported `Running`. -/
def startErrorRunning : Sys :=
  { progress := allFired,
    main := .join (some ⟨.ErrStartApplication, "error occurred", "testService"⟩),
    bg := .execLoop, calls := [.Start], changes := [stStartPending, stRunning],
    requests := testRequests, svcRunCalls := 1 }

/-- The `stop_error` scenario when the failure path of `stop` has fired the
gates. -/
def stopErrorFired : Sys :=
  { progress := allFired,
    main := .join (some ⟨.ErrStopApplication, "error occurred", "testService"⟩),
    bg := .execWaitStopped, calls := [.Start, .Stop],
    changes := fullReport testRequests, handled := testRequests, svcRunCalls := 1,
    stopObserved := true }

/-- The schedule of the `start_error` scenario in which the `select` of
`Execute` takes the closed stop-request gate at its first iteration. -/
def schedStartErrorRace : List Action :=
  mainSteps 5 ++ bgSteps 4 ++ [.bg false] ++ bgSteps 4 ++ mainSteps 1

/-- The schedule of the `start_error` scenario in which the `select` takes the
request at every iteration. -/
def schedStartErrorDrain : List Action :=
  mainSteps 5 ++ bgSteps 13 ++ mainSteps 1

/-! ## The status sequence of a successful managed run -/

/-- The states the test expects: `StartPending`, `Running`, one `Running` for
each of `n` interrogations, `StopPending`. -/
def expectedStates (n : Nat) : List Nat :=
  svc.StartPending :: svc.Running :: (List.replicate n svc.Running ++ [svc.StopPending])

/-- A request of the streams of claim C1 before the final one: an `Interrogate`
carrying a status with state `Running`, or an unknown command code. -/
def isBodyRequest (r : svc.ChangeRequest) : Prop :=
  (r.Cmd = svc.Interrogate ∧ r.CurrentStatus.State = svc.Running) ∨
  (r.Cmd ≠ svc.Interrogate ∧ r.Cmd ≠ svc.Stop ∧ r.Cmd ≠ svc.Shutdown)

instance (r : svc.ChangeRequest) : Decidable (isBodyRequest r) := by
  unfold isBodyRequest
  exact inferInstance

/-- The number of `Interrogate` requests in a list. -/
def interrogations (rs : List svc.ChangeRequest) : Nat :=
  rs.countP (fun r => r.Cmd = svc.Interrogate)

/-- Positions at which `Execute` has sent `StopPending`. -/
def BgPc.reported : BgPc → Bool
  | .notSpawned => false
  | .svcRun => false
  | .execStartPending => false
  | .execWaitStarted => false
  | .execRunning => false
  | .execLoop => false
  | .execStopPending => false
  | .execSignalStop => true
  | .execWaitStopped => true
  | .svcReturn => true
  | .sigAll _ => true
  | .dbgWaitStarted => false
  | .dbgNotify => false
  | .dbgSelect => false
  | .dbgSignalStop => false
  | .dbgWaitStopped => false
  | .done => true

/-- The end of the `run_error_before` scenario. -/
def endRunErrorBefore : Sys :=
  { progress := allFired, main := .returned none, bg := .done, calls := [.Start, .Stop],
    changes := [], svcRunCalls := 1, stopObserved := true }

/-- The end of the debug-mode `success` scenario. -/
def endDebug : Sys :=
  { progress := allFired, main := .returned none, bg := .done, calls := [.Start, .Stop],
    notified := true, stopObserved := true }

/-! ## Gate lemmas -/

/-- The three statements the step relation runs one by one are `signalAll`. -/
theorem signalAll_steps (p : serviceProgress) :
    p.signalAll =
      match SigStep.run .first p with
      | .error x => .error x
      | .ok p1 =>
        match SigStep.run .second p1 with
        | .error x => .error x
        | .ok p2 => SigStep.run .third p2 :=
  rfl

theorem signal_of_wf {e : eventChannel} (h : e.wf) : e.signal = .ok firedGate := by
  rcases h with h | h <;> subst h <;> rfl

theorem wf_firedGate : firedGate.wf := Or.inr rfl

theorem wf_newEventChannel : newEventChannel.wf := Or.inl rfl

theorem fire_first {s : Sys} (h : s.progress.startPending.wf) :
    s.fire .first = { s with progress := { s.progress with startPending := firedGate } } := by
  simp [Sys.fire, SigStep.run, serviceProgress.signalStartPending, signal_of_wf h]

theorem fire_second {s : Sys} (h : s.progress.running.wf) :
    s.fire .second = { s with progress := { s.progress with running := firedGate } } := by
  simp [Sys.fire, SigStep.run, serviceProgress.signalStopInitiation, signal_of_wf h]

theorem fire_third {s : Sys} (h : s.progress.stopPending.wf) :
    s.fire .third = { s with progress := { s.progress with stopPending := firedGate } } := by
  simp [Sys.fire, SigStep.run, serviceProgress.signalStopPending, signal_of_wf h]

/-! ## Invariants of the main sequence: proofs -/

theorem invA_init (c : Config) : InvA c (Sys.init c) :=
  { noPanic := rfl
    wfStart := wf_newEventChannel
    wfRun := wf_newEventChannel
    wfStop := wf_newEventChannel
    mainOk := by simp [mainOK, Sys.init] }

theorem invA_main_step {c : Config} {s s2 : Sys} (h : InvA c s) (hs : stepRun c s = some s2) :
    InvA c s2 := by
  have hm := h.mainOk
  have hf1 := fire_first h.wfStart
  have hf2 := fire_second h.wfRun
  have hf3 := fire_third h.wfStop
  obtain ⟨hp, h1, h2, h3, -⟩ := h
  unfold stepRun at hs
  unfold mainOK at hm
  simp only [hf1, hf2, hf3] at hs
  repeat' (split at hs)
  all_goals (cases hs)
  all_goals (constructor <;> simp_all [mainOK, resOK, wf_firedGate])

theorem invA_bg_step {c : Config} {b : Bool} {s s2 : Sys} (h : InvA c s)
    (hs : stepBackground c b s = some s2) : InvA c s2 := by
  have hm := h.mainOk
  have hf1 := fire_first h.wfStart
  have hf2 := fire_second h.wfRun
  have hf3 := fire_third h.wfStop
  obtain ⟨hp, h1, h2, h3, -⟩ := h
  unfold stepBackground stepExecuteLoop at hs
  unfold mainOK at hm
  simp only [hf1, hf2, hf3] at hs
  repeat' (split at hs)
  all_goals (cases hs)
  all_goals (constructor <;> simp_all [mainOK, wf_firedGate])

theorem invA_next {c : Config} {a : Action} {s s2 : Sys} (h : InvA c s)
    (hs : step c a s = some s2) : InvA c s2 := by
  unfold step at hs
  split at hs
  · cases hs
  · cases a with
    | main => exact invA_main_step h hs
    | bg b => exact invA_bg_step h hs
    | deliver =>
      have hm := h.mainOk
      obtain ⟨hp, h1, h2, h3, -⟩ := h
      simp only at hs
      split at hs
      · cases hs
        constructor <;> simp_all [mainOK]
      · cases hs
    | osSignal =>
      have hm := h.mainOk
      obtain ⟨hp, h1, h2, h3, -⟩ := h
      simp only at hs
      split at hs
      · cases hs
        constructor <;> simp_all [mainOK]
      · cases hs

/-- An invariant of every step is an invariant of every execution. -/
theorem execFrom_induct {c : Config} (P : Sys → Prop)
    (hstep : ∀ a s s2, P s → step c a s = some s2 → P s2) :
    ∀ (sched : List Action) (s s2 : Sys), P s → execFrom c sched s = some s2 → P s2 := by
  intro sched
  induction sched with
  | nil =>
    intro s s2 hP h
    simp only [execFrom, Option.some.injEq] at h
    exact h ▸ hP
  | cons a rest ih =>
    intro s s2 hP h
    simp only [execFrom] at h
    split at h
    · rename_i s1 h1
      exact ih s1 s2 (hstep a s s1 hP h1) h
    · cases h

/-! ## Gates against program counters: proofs -/

theorem invB_init (c : Config) : InvB c (Sys.init c) := by
  constructor <;> simp [Sys.init, newServiceProgress, newEventChannel, BgPc.modeOK, BgPc.needSF,
    BgPc.needRF, BgPc.needPF, MainPc.needSF, MainPc.needRF, MainPc.needPF, BgPc.sawStart]

theorem invB_main_step {c : Config} {s s2 : Sys} (hA : InvA c s) (h : InvB c s)
    (hs : stepRun c s = some s2) : InvB c s2 := by
  have hm := hA.mainOk
  have hf1 := fire_first hA.wfStart
  have hf2 := fire_second hA.wfRun
  have hf3 := fire_third hA.wfStop
  rw [invB_iff]
  obtain ⟨g1, g2, g3, g4, g5, g6, g7, g8, g9, g10, g11, g12, g13, g14, g15⟩ := h
  unfold stepRun at hs
  unfold mainOK at hm
  simp only [hf1, hf2, hf3, serviceProgress.waitForStopInitiation, eventChannel.wait,
    Chan.recv] at hs
  clear hf1 hf2 hf3 hA
  split at hs
  · split at hs <;> cases hs <;>
      simp_all [Sys.SF, Sys.RF, Sys.PF, BgPc.modeOK, BgPc.needSF, BgPc.needRF, BgPc.needPF,
        MainPc.needSF, MainPc.needRF, MainPc.needPF, BgPc.sawStart, BgPc.afterFirst]
  all_goals (repeat' (split at hs))
  all_goals (cases hs)
  all_goals
    simp_all [Sys.SF, Sys.RF, Sys.PF, resOK, firedGate, MainPc.needSF, MainPc.needRF,
      MainPc.needPF]
  all_goals (split at hm <;> simp_all)

theorem invB_bg_step {c : Config} {b : Bool} {s s2 : Sys} (hA : InvA c s) (h : InvB c s)
    (hs : stepBackground c b s = some s2) : InvB c s2 := by
  have hf1 := fire_first hA.wfStart
  have hf2 := fire_second hA.wfRun
  have hf3 := fire_third hA.wfStop
  rw [invB_iff]
  obtain ⟨g1, g2, g3, g4, g5, g6, g7, g8, g9, g10, g11, g12, g13, g14, g15⟩ := h
  unfold stepBackground stepExecuteLoop at hs
  simp only [hf1, hf2, hf3, serviceProgress.waitForStartPending,
    serviceProgress.waitForStopPending, eventChannel.wait, Chan.recv] at hs
  clear hf1 hf2 hf3 hA
  repeat' (split at hs)
  all_goals (cases hs)
  all_goals
    simp_all [Sys.SF, Sys.RF, Sys.PF, firedGate, BgPc.modeOK, BgPc.needSF, BgPc.needRF,
      BgPc.needPF, BgPc.sawStart, BgPc.afterFirst, Config.bgFires]
  all_goals (first | (intros; simp_all; done) | (cases hinv : c.invokes <;> simp_all))

theorem invB_next {c : Config} {a : Action} {s s2 : Sys} (hA : InvA c s) (h : InvB c s)
    (hs : step c a s = some s2) : InvB c s2 := by
  unfold step at hs
  split at hs
  · cases hs
  · cases a with
    | main => exact invB_main_step hA h hs
    | bg b => exact invB_bg_step hA h hs
    | deliver =>
      rw [invB_iff]
      obtain ⟨g1, g2, g3, g4, g5, g6, g7, g8, g9, g10, g11, g12, g13, g14, g15⟩ := h
      simp only at hs
      split at hs
      · cases hs
        simp_all [Sys.SF, Sys.RF, Sys.PF]
      · cases hs
    | osSignal =>
      rw [invB_iff]
      obtain ⟨g1, g2, g3, g4, g5, g6, g7, g8, g9, g10, g11, g12, g13, g14, g15⟩ := h
      simp only at hs
      split at hs
      · cases hs
        simp_all [Sys.SF, Sys.RF, Sys.PF]
      · cases hs

/-! ## What has been sent on `changes`: proofs -/

theorem invC_init (c : Config) : InvC c (Sys.init c) := by
  constructor <;> simp [Sys.init, shapeOf, BgPc.beforeLoop]
  · split <;> simp
  · intro h _
    simp [h]

theorem invC_main_step {c : Config} {s s2 : Sys} (hA : InvA c s) (hB : InvB c s)
    (h : InvC c s) (hs : stepRun c s = some s2) : InvC c s2 := by
  have hf1 := fire_first hA.wfStart
  have hf2 := fire_second hA.wfRun
  have hf3 := fire_third hA.wfStop
  have hsp := hB.spawned
  rw [invC_iff]
  obtain ⟨g1, g2, g3, g4, g5, g6, g7, g8⟩ := h
  unfold stepRun at hs
  simp only [hf1, hf2, hf3] at hs
  clear hf1 hf2 hf3 hA hB
  split at hs
  · rename_i heq
    have hbg := hsp.mp heq
    simp only [hbg] at g1 g3 g4 g6 g8
    split at hs <;> cases hs <;> simp_all [shapeOf, BgPc.beforeLoop, BgPc.beforeSelect]
  all_goals (repeat' (split at hs))
  all_goals (cases hs)
  all_goals simp_all

theorem invC_bg_step {c : Config} {b : Bool} {s s2 : Sys} (hA : InvA c s) (hB : InvB c s)
    (h : InvC c s) (hs : stepBackground c b s = some s2) : InvC c s2 := by
  have hf1 := fire_first hA.wfStart
  have hf2 := fire_second hA.wfRun
  have hf3 := fire_third hA.wfStop
  have hmode := hB.mode
  rw [invC_iff]
  obtain ⟨g1, g2, g3, g4, g5, g6, g7, g8⟩ := h
  unfold stepBackground stepExecuteLoop at hs
  simp only [hf1, hf2, hf3] at hs
  clear hf1 hf2 hf3 hA hB
  repeat' (split at hs)
  all_goals (cases hs)
  all_goals
    simp_all [shapeOf, fullReport, echoes, BgPc.beforeLoop, BgPc.beforeSelect, BgPc.modeOK,
      List.filterMap_append, isStop]
  all_goals
    (rintro r (hr | rfl)
     · exact g4 r hr
     · simp_all [svc.Interrogate, svc.Stop, svc.Shutdown])

theorem invC_next {c : Config} {a : Action} {s s2 : Sys} (hA : InvA c s) (hB : InvB c s)
    (h : InvC c s) (hs : step c a s = some s2) : InvC c s2 := by
  unfold step at hs
  split at hs
  · cases hs
  · cases a with
    | main => exact invC_main_step hA hB h hs
    | bg b => exact invC_bg_step hA hB h hs
    | deliver =>
      rw [invC_iff]
      obtain ⟨g1, g2, g3, g4, g5, g6, g7, g8⟩ := h
      simp only at hs
      split at hs
      · cases hs
        simp_all
      · cases hs
    | osSignal =>
      rw [invC_iff]
      obtain ⟨g1, g2, g3, g4, g5, g6, g7, g8⟩ := h
      simp only at hs
      split at hs
      · cases hs
        simp_all
      · cases hs

theorem inv_next {c : Config} {a : Action} {s s2 : Sys} (h : Inv c s)
    (hs : step c a s = some s2) : Inv c s2 :=
  ⟨invA_next h.a hs, invB_next h.a h.b hs, invC_next h.a h.b h.c hs⟩

theorem inv_of_exec {c : Config} {sched : List Action} {s : Sys} (h : exec c sched = some s) :
    Inv c s :=
  execFrom_induct (Inv c) (fun _ _ _ hP hs => inv_next hP hs) sched _ s
    ⟨invA_init c, invB_init c, invC_init c⟩ h

/-! ## Why `Execute` leaves its loop when `app.Start` succeeds: proofs -/

theorem invK_init (c : Config) : InvK c (Sys.init c) := by
  constructor <;>
    simp [Sys.init, BgPc.early, BgPc.pastLoop, Sys.RF, newServiceProgress, newEventChannel]

theorem invK_main_step {c : Config} {s s2 : Sys} (hstart : c.startErr = none) (hI : Inv c s)
    (h : InvK c s) (hs : stepRun c s = some s2) : InvK c s2 := by
  have hm := hI.a.mainOk
  have hf1 := fire_first hI.a.wfStart
  have hf2 := fire_second hI.a.wfRun
  have hf3 := fire_third hI.a.wfStop
  have hsp := hI.b.spawned
  have hobs := hI.b.obsRF
  rw [invK_iff]
  obtain ⟨g1, g2⟩ := h
  unfold stepRun at hs
  unfold mainOK at hm
  simp only [hf1, hf2, hf3] at hs
  clear hf1 hf2 hf3 hI
  split at hs
  · rename_i heq
    have hbg := hsp.mp heq
    simp only [hbg] at g1 g2
    split at hs <;> cases hs <;> simp_all [BgPc.early, BgPc.pastLoop, Sys.RF]
  all_goals (repeat' (split at hs))
  all_goals (cases hs)
  all_goals simp_all [Sys.RF, resOK, firedGate]

theorem invK_bg_step {c : Config} {b : Bool} {s s2 : Sys} (hI : Inv c s)
    (h : InvK c s) (hs : stepBackground c b s = some s2) : InvK c s2 := by
  have hf1 := fire_first hI.a.wfStart
  have hf2 := fire_second hI.a.wfRun
  have hf3 := fire_third hI.a.wfStop
  have hmode := hI.b.mode
  have hloop := hI.c.inLoop
  rw [invK_iff]
  obtain ⟨g1, g2⟩ := h
  unfold stepBackground stepExecuteLoop at hs
  simp only [hf1, hf2, hf3] at hs
  clear hf1 hf2 hf3 hI
  repeat' (split at hs)
  all_goals (cases hs)
  all_goals simp_all [Sys.RF, BgPc.early, BgPc.pastLoop, BgPc.modeOK, firedGate]
  all_goals
    (rename_i hr _ hstop
     exact ⟨s.handled, _, rfl, hstop, hloop⟩)

theorem invK_next {c : Config} {a : Action} {s s2 : Sys} (hstart : c.startErr = none)
    (hI : Inv c s) (h : InvK c s) (hs : step c a s = some s2) : InvK c s2 := by
  unfold step at hs
  split at hs
  · cases hs
  · cases a with
    | main => exact invK_main_step hstart hI h hs
    | bg b => exact invK_bg_step hI h hs
    | deliver =>
      rw [invK_iff]
      obtain ⟨g1, g2⟩ := h
      simp only at hs
      split at hs
      · cases hs
        simp_all [Sys.RF]
      · cases hs
    | osSignal =>
      rw [invK_iff]
      obtain ⟨g1, g2⟩ := h
      simp only at hs
      split at hs
      · cases hs
        simp_all [Sys.RF]
      · cases hs

theorem invK_of_exec {c : Config} {sched : List Action} {s : Sys} (hstart : c.startErr = none)
    (h : exec c sched = some s) : InvK c s :=
  (execFrom_induct (fun s => Inv c s ∧ InvK c s)
    (fun _ _ _ hP hs => ⟨inv_next hP.1 hs, invK_next hstart hP.1 hP.2 hs⟩) sched _ s
    ⟨⟨invA_init c, invB_init c, invC_init c⟩, invK_init c⟩ h).2

/-! ## Termination and blocked states: proofs -/

theorem fire_frame (s : Sys) (k : SigStep) :
    (s.fire k).main = s.main ∧ (s.fire k).bg = s.bg ∧ (s.fire k).pending = s.pending ∧
    (s.fire k).requests = s.requests ∧ (s.fire k).osSignalChan = s.osSignalChan := by
  unfold Sys.fire
  split <;> simp

theorem stepRun_measure {c : Config} {s s2 : Sys} (hsp : s.main = .spawn → s.bg = .notSpawned)
    (h : stepRun c s = some s2) : s2.measure < s.measure := by
  unfold stepRun at h
  repeat' (split at h)
  all_goals (cases h)
  all_goals simp_all [Sys.measure, MainPc.rank, BgPc.rank, fire_frame]

theorem stepBackground_measure {c : Config} {b : Bool} {s s2 : Sys}
    (h : stepBackground c b s = some s2) : s2.measure < s.measure := by
  unfold stepBackground stepExecuteLoop at h
  repeat' (split at h)
  all_goals (cases h)
  all_goals simp_all [Sys.measure, MainPc.rank, BgPc.rank, fire_frame]
  all_goals ((repeat' split) <;> omega)

theorem step_measure {c : Config} {a : Action} {s s2 : Sys}
    (hsp : s.main = .spawn → s.bg = .notSpawned) (h : step c a s = some s2) :
    s2.measure < s.measure := by
  unfold step at h
  split at h
  · cases h
  · cases a with
    | main => exact stepRun_measure hsp h
    | bg b => exact stepBackground_measure h
    | deliver =>
      simp only at h
      split at h
      · cases h
        simp_all [Sys.measure]
        omega
      · cases h
    | osSignal =>
      simp only at h
      split at h
      · cases h
        simp_all [Sys.measure]
      · cases h

theorem execFrom_measure {c : Config} :
    ∀ (sched : List Action) (s s2 : Sys), Inv c s → execFrom c sched s = some s2 →
      sched.length + s2.measure ≤ s.measure := by
  intro sched
  induction sched with
  | nil =>
    intro s s2 _ h
    simp only [execFrom, Option.some.injEq] at h
    simp [h]
  | cons a rest ih =>
    intro s s2 hI h
    simp only [execFrom] at h
    split at h
    · rename_i s1 h1
      have := ih s1 s2 (inv_next hI h1) h
      have := step_measure hI.b.spawned.mp h1
      simp only [List.length_cons]
      omega
    · cases h

/-- No execution is longer than this. -/
theorem exec_length {c : Config} {sched : List Action} {s : Sys} (h : exec c sched = some s) :
    sched.length ≤ 25 + 2 * c.later.length + c.queued.length := by
  have h1 := execFrom_measure sched _ s ⟨invA_init c, invB_init c, invC_init c⟩ h
  have h2 : (Sys.init c).measure ≤ 25 + 2 * c.later.length + c.queued.length := by
    simp only [Sys.measure, Sys.init, MainPc.rank, BgPc.rank]
    split
    · simp
    · simp only [if_true]
      omega
  omega

/-- When the main sequence cannot step, it waits for the stop request, waits
for the background goroutine, or has returned. -/
theorem main_blocked {c : Config} {s : Sys} (hm : stepRun c s = none) :
    (s.main = .waitStop ∧ s.RF = false) ∨ (∃ r, s.main = .join r ∧ s.bg ≠ .done) ∨
    (∃ r, s.main = .returned r) := by
  unfold stepRun at hm
  repeat' (split at hm)
  all_goals
    simp_all [serviceProgress.waitForStopInitiation, eventChannel.wait, Chan.recv, Sys.RF]

/-- The states in which neither goroutine can step: `Run` has returned, or the
main sequence waits for the stop request while the background goroutine waits
for a control request, waits for a termination signal, or has ended without
firing the gates (a registrar that returned nil without calling `Execute`). -/
theorem blocked_cases {c : Config} {s : Sys} (hI : Inv c s) (hm : step c .main s = none)
    (hb : ∀ b, step c (.bg b) s = none) :
    (∃ r, s.main = .returned r) ∨
    (s.main = .waitStop ∧ s.RF = false ∧
      ((s.bg = .execLoop ∧ s.requests = []) ∨ (s.bg = .dbgSelect ∧ s.osSignalChan = 0) ∨
       (s.bg = .done ∧ c.bgFires = false))) := by
  have hp := hI.a.noPanic
  have hb1 := hb true
  simp only [step, hp, Bool.false_eq_true, if_false] at hm hb1
  obtain ⟨g1, g2, g3, g4, g5, g6, g7, g8, g9, g10, g11, g12, g13, g14, g15⟩ := hI.b
  clear hI hb
  rcases main_blocked hm with ⟨h1, h2⟩ | ⟨r, h1, h2⟩ | h1
  · refine Or.inr ⟨h1, h2, ?_⟩
    clear hm
    unfold stepBackground stepExecuteLoop at hb1
    repeat' (split at hb1)
    all_goals
      simp_all [serviceProgress.waitForStartPending, serviceProgress.waitForStopPending,
        eventChannel.wait, Chan.recv, Sys.SF, Sys.RF, Sys.PF, MainPc.needSF, MainPc.needRF,
        MainPc.needPF, BgPc.needSF, BgPc.needRF, BgPc.needPF]
  · exfalso
    clear hm
    unfold stepBackground stepExecuteLoop at hb1
    repeat' (split at hb1)
    all_goals
      simp_all [serviceProgress.waitForStartPending, serviceProgress.waitForStopPending,
        eventChannel.wait, Chan.recv, Sys.SF, Sys.RF, Sys.PF, MainPc.needSF, MainPc.needRF,
        MainPc.needPF, BgPc.needSF, BgPc.needRF, BgPc.needPF]
  · exact Or.inl h1

/-! ## Claims -/

theorem signalN_firedGate (m : Nat) : firedGate.signalN m = .ok firedGate := by
  induction m with
  | zero => rfl
  | succ m ih => simpa [eventChannel.signalN, signal_of_wf wf_firedGate] using ih

theorem signalN_new_succ (m : Nat) : newEventChannel.signalN (m + 1) = .ok firedGate := by
  simp [eventChannel.signalN, signal_of_wf wf_newEventChannel, signalN_firedGate]

/-- C5: the gate is one-shot and idempotent.  For every n ≥ 1, n calls of
`signal` on a new gate leave it in the state one call leaves it in; in that
state the channel has been closed exactly once, the gate is fired and a `wait`
returns at once; and any number of further signals return without a panic and
leave the gate in this very state, so it never becomes unfired. -/
theorem C5_signal_idempotent (n : Nat) (hn : 1 ≤ n) :
    newEventChannel.signalN n = newEventChannel.signalN 1 ∧
    ∃ g, newEventChannel.signalN n = .ok g ∧ g.ch.closeCalls = 1 ∧ g.fired = true ∧
      g.wait = some () ∧ ∀ m, g.signalN m = .ok g := by
  obtain ⟨m, rfl⟩ : ∃ m, n = m + 1 := ⟨n - 1, by omega⟩
  refine ⟨by rw [signalN_new_succ, signalN_new_succ], firedGate, signalN_new_succ m, rfl, rfl,
    rfl, signalN_firedGate⟩

theorem C5_signal_idempotent_witness :
    1 ≤ 3 ∧ newEventChannel.signalN 3 = newEventChannel.signalN 1 ∧
    ∃ g, newEventChannel.signalN 3 = .ok g ∧ g.ch.closeCalls = 1 ∧ g.fired = true ∧
      g.wait = some () ∧ ∀ m, g.signalN m = .ok g :=
  ⟨by decide, C5_signal_idempotent 3 (by decide)⟩

theorem calls_cases {c : Config} {s : Sys} (h : InvA c s) :
    s.calls = [] ∨ s.calls = [.Start] ∨ (s.calls = [.Start, .Stop] ∧ c.startErr = none) := by
  have hm := h.mainOk
  unfold mainOK at hm
  split at hm <;> (try unfold resOK at hm) <;> (try split at hm) <;> simp_all

/-- C2: in every execution, in either mode and whatever the registrar and the
requests are, `app.Start` is called at most once, `app.Stop` at most once and
only after a successful Start; and when `Run` has returned, Start was called
exactly once, Stop not at all if Start failed and exactly once if Start
succeeded. -/
theorem C2_start_stop_once (c : Config) (sched : List Action) (s : Sys)
    (h : exec c sched = some s) :
    s.calls.count .Start ≤ 1 ∧ s.calls.count .Stop ≤ 1 ∧
    (.Stop ∈ s.calls → c.startErr = none) ∧
    ∀ r, s.main = .returned r →
      s.calls.count .Start = 1 ∧
      (c.startErr ≠ none → s.calls.count .Stop = 0) ∧
      (c.startErr = none → s.calls.count .Stop = 1) := by
  have hA := (inv_of_exec h).a
  have hm := hA.mainOk
  refine ⟨?_, ?_, ?_, ?_⟩
  · rcases calls_cases hA with h1 | h1 | ⟨h1, -⟩ <;> simp [h1]
  · rcases calls_cases hA with h1 | h1 | ⟨h1, -⟩ <;> simp [h1]
  · rcases calls_cases hA with h1 | h1 | ⟨h1, h2⟩ <;> simp [h1, *]
  · intro r hr
    simp only [mainOK, hr, resOK] at hm
    split at hm
    · obtain ⟨-, h1, -⟩ := hm
      simp_all
    · obtain ⟨h1, -, -⟩ := hm
      simp_all

theorem C2_start_stop_once_witness :
    exec cfgRunErrorAfter (schedManaged 11 3 5) = some (endManaged none [.Start, .Stop] true) ∧
    [AppCall.Start, AppCall.Stop].count .Start = 1 ∧ [AppCall.Start, AppCall.Stop].count .Stop = 1 :=
  ⟨rfl,
    ((C2_start_stop_once cfgRunErrorAfter (schedManaged 11 3 5)
      (endManaged none [.Start, .Stop] true) rfl).2.2.2 none rfl).1,
    ((C2_start_stop_once cfgRunErrorAfter (schedManaged 11 3 5)
      (endManaged none [.Start, .Stop] true) rfl).2.2.2 none rfl).2.2 rfl⟩

/-- C3: when `Run` returns, it returns `ErrStartApplication` with the cause and
the service name if Start failed, `ErrStopApplication` with the cause and the
service name if Start succeeded and Stop failed, and nil if both succeeded; so
it returns an error exactly when Start or Stop fails.  The registrar's own
result `runErr` (and whether it called `Execute`) is not part of the result.
And `Run` does return: when neither goroutine can step, `Run` has returned that
value, unless Start succeeded and the main sequence is still waiting for a stop
request (the stop-request gate has not fired); no execution has more steps than
the bound. -/
theorem C3_run_result (c : Config) (sched : List Action) (s : Sys)
    (h : exec c sched = some s) :
    (∀ r, s.main = .returned r →
      r = expectedResult c ∧
      (r.isSome = true ↔ (c.startErr.isSome = true ∨ c.stopErr.isSome = true))) ∧
    (step c .main s = none → (∀ b, step c (.bg b) s = none) →
      s.main = .returned (expectedResult c) ∨
      (c.startErr = none ∧ s.main = .waitStop ∧ s.RF = false)) ∧
    sched.length ≤ 25 + 2 * c.later.length + c.queued.length := by
  have hI := inv_of_exec h
  have hres : ∀ r, s.main = .returned r →
      r = expectedResult c ∧
      (r.isSome = true ↔ (c.startErr.isSome = true ∨ c.stopErr.isSome = true)) := by
    intro r hr
    have hm := hI.a.mainOk
    simp only [mainOK, hr, resOK] at hm
    unfold expectedResult
    split at hm
    · obtain ⟨h1, -, -⟩ := hm
      simp_all
    · obtain ⟨-, -, h1⟩ := hm
      split at h1 <;> simp_all
  refine ⟨hres, ?_, exec_length h⟩
  intro hm hb
  rcases blocked_cases hI hm hb with ⟨r, hr⟩ | ⟨h1, h2, -⟩
  · exact Or.inl (by rw [hr, (hres r hr).1])
  · have hm2 := hI.a.mainOk
    simp only [mainOK, h1] at hm2
    exact Or.inr ⟨hm2.1, h1, h2⟩

theorem C3_run_result_witness :
    exec cfgStopError (schedManaged 11 5 2) =
      some (endManaged (some ⟨.ErrStopApplication, "error occurred", "testService"⟩)
        [.Start, .Stop] true) ∧
    some ⟨.ErrStopApplication, "error occurred", "testService"⟩ = expectedResult cfgStopError :=
  ⟨rfl, ((C3_run_result cfgStopError (schedManaged 11 5 2)
    (endManaged (some ⟨.ErrStopApplication, "error occurred", "testService"⟩) [.Start, .Stop] true)
    rfl).1 (some ⟨.ErrStopApplication, "error occurred", "testService"⟩) rfl).1⟩

/-- Whatever has been sent is an initial part of the full report for the
requests received so far. -/
theorem changes_initial {c : Config} {s : Sys} (hC : InvC c s) :
    ∃ t, s.changes ++ t = fullReport s.handled := by
  have h := hC.shape
  cases hbg : s.bg <;> simp only [hbg, shapeOf] at h <;> (try split at h) <;> rw [h] <;>
    first
    | exact ⟨_, rfl⟩
    | exact ⟨[], by simp⟩

theorem mem_fullReport {rs : List svc.ChangeRequest} {st : svc.Status}
    (h : st ∈ fullReport rs) :
    st = stStartPending ∨ st = stRunning ∨ st = stStopPending ∨
      ∃ r ∈ rs, r.Cmd = svc.Interrogate ∧ st = r.CurrentStatus := by
  simp only [fullReport, echoes, List.mem_cons, List.mem_append, List.mem_filterMap,
    List.mem_singleton, List.not_mem_nil, or_false] at h
  rcases h with h | h | h | h
  · exact Or.inl h
  · exact Or.inr (Or.inl h)
  · obtain ⟨r, hr, hst⟩ := h
    split at hst
    · rename_i hcmd
      simp only [Option.some.injEq] at hst
      exact Or.inr (Or.inr (Or.inr ⟨r, hr, hcmd, hst.symm⟩))
    · cases hst
  · exact Or.inr (Or.inr (Or.inl h))

/-- C4, as stated, fails: `Execute` answers an `Interrogate` that carries the
status `Paused` with `Paused`, which is none of the three values and not the
`Running` status it last reported. -/
theorem C4_counterexample :
    (exec cfgPaused (mainSteps 3 ++ bgSteps 5)).map (fun s => s.changes) =
      some [stStartPending, stRunning, { State := svc.Paused }] ∧
    ({ State := svc.Paused } : svc.Status) ∉ [stStartPending, stRunning, stStopPending] :=
  ⟨rfl, by decide⟩

/-- C4, amended: at every point of every execution, with `s.handled` the
requests `Execute` has received so far (an initial part of the request stream):
what has been sent is exactly the report fixed by the position of `Execute`,
namely `StartPending, Running` followed by the `CurrentStatus` carried by each
`Interrogate` received, in order, while `Execute` is in or just past its loop,
and that sequence followed by `StopPending` once `StopPending` has been sent;
so it is always an initial part of the full report for the requests received,
and every status sent is one of the three values or the `CurrentStatus` carried
by an `Interrogate` request that was received. -/
theorem C4_statuses_sent (c : Config) (sched : List Action) (s : Sys)
    (h : exec c sched = some s) :
    s.handled ++ (s.requests ++ s.pending) = c.queued ++ c.later ∧
    s.changes = shapeOf c s.handled s.bg ∧
    (s.bg = .execLoop ∨ s.bg = .execStopPending →
      s.changes = stStartPending :: stRunning :: echoes s.handled) ∧
    (s.bg.reported = true → c.isDebug = false → c.invokes = true →
      s.changes = fullReport s.handled) ∧
    (∃ t, s.changes ++ t = fullReport s.handled) ∧
    ∀ st ∈ s.changes, st = stStartPending ∨ st = stRunning ∨ st = stStopPending ∨
      ∃ r ∈ s.handled, r.Cmd = svc.Interrogate ∧ st = r.CurrentStatus := by
  have hC := (inv_of_exec h).c
  have hshape := hC.shape
  obtain ⟨t, ht⟩ := changes_initial hC
  refine ⟨hC.conserve, hshape, ?_, ?_, ⟨t, ht⟩, ?_⟩
  · intro hbg
    rcases hbg with hbg | hbg <;> rw [hshape, hbg] <;> rfl
  · intro hrep hd hi
    rw [hshape]
    clear hshape ht h hC
    cases hbg : s.bg <;> simp_all [shapeOf, BgPc.reported]
  · intro st hst
    have hmem : st ∈ fullReport s.handled := by
      rw [← ht]
      exact List.mem_append_left _ hst
    exact mem_fullReport hmem

theorem C4_statuses_sent_witness :
    exec cfgPaused (schedManaged 8 3 2) = some endPaused ∧
    endPaused.handled = cfgPaused.queued ∧
    endPaused.changes = fullReport endPaused.handled ∧
    ∀ st ∈ endPaused.changes,
      st = stStartPending ∨ st = stRunning ∨ st = stStopPending ∨
      ∃ r ∈ endPaused.handled, r.Cmd = svc.Interrogate ∧ st = r.CurrentStatus :=
  ⟨rfl, rfl,
    (C4_statuses_sent cfgPaused (schedManaged 8 3 2) endPaused rfl).2.2.2.1 rfl rfl rfl,
    (C4_statuses_sent cfgPaused (schedManaged 8 3 2) endPaused rfl).2.2.2.2.2⟩

/-- A status with state `Running` has been sent only when `Execute` is at or
past its `Running` report. -/
theorem running_sent {c : Config} {s : Sys} (hB : InvB c s) (hC : InvC c s) (st : svc.Status)
    (hst : st ∈ s.changes) (hR : st.State = svc.Running) :
    s.bg.sawStart c = true ∧ s.bg.needSF c = true := by
  have h := hC.shape
  have hmode := hB.mode
  rw [h] at hst
  clear h hB hC
  cases hbg : s.bg <;>
    simp_all [shapeOf, BgPc.sawStart, BgPc.needSF, BgPc.modeOK, Config.bgFires, stStartPending]
  all_goals (rename_i k; cases k <;> simp_all [BgPc.needSF])

/-- C6, as stated, fails: when `app.Start` returns an error, the failure path
fires the started gate and `Execute` reports `Running`, though Start has not
returned successfully. -/
theorem C6_counterexample :
    (exec cfgStartError (mainSteps 5 ++ bgSteps 4)).map (fun s => (s.changes, s.calls, s.SF)) =
      some ([stStartPending, stRunning], [.Start], true) ∧
    stRunning.State = svc.Running ∧ cfgStartError.startErr = some "error occurred" :=
  ⟨rfl, rfl, rfl⟩

/-- C6, amended: whenever a status with state `Running` has been sent, the
started gate has fired and `app.Start` has already returned, successfully or
with an error. -/
theorem C6_running_after_start (c : Config) (sched : List Action) (s : Sys)
    (h : exec c sched = some s) (st : svc.Status) (hst : st ∈ s.changes)
    (hR : st.State = svc.Running) :
    s.SF = true ∧ AppCall.Start ∈ s.calls := by
  have hI := inv_of_exec h
  obtain ⟨h1, h2⟩ := running_sent hI.b hI.c st hst hR
  refine ⟨hI.b.bgSF h2, ?_⟩
  have h3 := hI.b.sawStart h1
  rcases calls_cases hI.a with h4 | h4 | ⟨h4, -⟩
  · exact absurd h4 h3
  · simp [h4]
  · simp [h4]

theorem C6_running_after_start_witness :
    exec cfgStartError (mainSteps 5 ++ bgSteps 4) = some startErrorRunning ∧
    stRunning ∈ startErrorRunning.changes ∧
    startErrorRunning.SF = true ∧ AppCall.Start ∈ startErrorRunning.calls :=
  ⟨rfl, by decide,
    C6_running_after_start cfgStartError (mainSteps 5 ++ bgSteps 4) startErrorRunning rfl
      stRunning (by decide) rfl⟩

/-- C7, as stated, fails on two paths.  When `app.Start` returns an error,
`signalAll` fires the stopped gate though `waitForStopInitiation` is never
reached; when the registrar returns an error without calling `Execute`, its
`signalAll` fires the stopped gate while the main sequence has not yet called
Start. -/
theorem C7_counterexample :
    (exec cfgStartError (mainSteps 5)).map (fun s => (s.PF, s.stopObserved, s.main)) =
      some (true, false,
        .join (some ⟨.ErrStartApplication, "error occurred", "testService"⟩)) ∧
    (exec cfgRunErrorBefore (mainSteps 1 ++ bgSteps 5)).map
        (fun s => (s.PF, s.stopObserved, s.main)) =
      some (true, false, .callStart) :=
  ⟨rfl, rfl⟩

/-- C7, amended: when `app.Start` succeeds and the registrar does not fail
before calling `Execute` (it returns no error, or it called `Execute`, or the
run is in debug mode, where there is no registrar), the stopped gate is fired
only after `waitForStopInitiation` has returned, also when `app.Stop` fails. -/
theorem C7_stopped_after_observed (c : Config) (sched : List Action) (s : Sys)
    (h : exec c sched = some s) (hstart : c.startErr = none)
    (hreg : c.runErr = none ∨ c.isDebug = true ∨ c.invokes = true) (hp : s.PF = true) :
    s.stopObserved = true := by
  rcases (inv_of_exec h).b.whoStop hp with h1 | h1 | ⟨h1, h2, h3⟩
  · exact h1
  · simp [hstart] at h1
  · rcases hreg with h4 | h4 | h4
    · simp [h4] at h1
    · simp [h4] at h2
    · simp [h4] at h3

theorem C7_stopped_after_observed_witness :
    exec cfgStopError (mainSteps 3 ++ bgSteps 11 ++ mainSteps 5) = some stopErrorFired ∧
    stopErrorFired.PF = true ∧ stopErrorFired.stopObserved = true :=
  ⟨rfl, rfl,
    C7_stopped_after_observed cfgStopError (mainSteps 3 ++ bgSteps 11 ++ mainSteps 5)
      stopErrorFired rfl rfl (Or.inl rfl) rfl⟩

/-- C9: in the `start_error` scenario with the five requests queued, an
execution in which `Run` returns sends only `StartPending, Running,
StopPending`: the `select` takes the stop-request gate, already fired by the
failure path, and no queued request is received.  Another execution of the
same scenario sends the six states the test expects. -/
theorem C9_start_error_race :
    (exec cfgStartError schedStartErrorRace).map
        (fun s => (s.states, s.handled, s.requests, s.main, s.bg)) =
      some ([svc.StartPending, svc.Running, svc.StopPending], [], testRequests,
        .returned (some ⟨.ErrStartApplication, "error occurred", "testService"⟩), .done) ∧
    (exec cfgStartError schedStartErrorDrain).map
        (fun s => (s.states, s.handled, s.requests, s.main, s.bg)) =
      some ([svc.StartPending, svc.Running, svc.Running, svc.Running, svc.Running,
          svc.StopPending], testRequests, [],
        .returned (some ⟨.ErrStartApplication, "error occurred", "testService"⟩), .done) :=
  ⟨rfl, rfl⟩

/-! ## The status sequence of a successful managed run: proofs -/

theorem stop_unique :
    ∀ (body h : List svc.ChangeRequest) (x fin : svc.ChangeRequest)
      (rest : List svc.ChangeRequest),
      (∀ r ∈ body, ¬ isStop r) → isStop x → h ++ x :: rest = body ++ [fin] →
      h = body ∧ x = fin ∧ rest = [] := by
  intro body
  induction body with
  | nil =>
    intro h x fin rest _ _ heq
    cases h with
    | nil => simpa using heq
    | cons a h2 => simp at heq
  | cons b bs ih =>
    intro h x fin rest hbody hx heq
    cases h with
    | nil =>
      simp only [List.nil_append, List.cons_append, List.cons.injEq] at heq
      exact absurd (heq.1 ▸ hx) (hbody b (List.mem_cons_self _ _))
    | cons a h2 =>
      simp only [List.cons_append, List.cons.injEq] at heq
      obtain ⟨h1, h2c, h3⟩ := ih h2 x fin rest
        (fun r hr => hbody r (List.mem_cons_of_mem _ hr)) hx heq.2
      exact ⟨by rw [heq.1, h1], h2c, h3⟩

theorem body_not_stop {r : svc.ChangeRequest} (h : isBodyRequest r) : ¬ isStop r := by
  unfold isBodyRequest at h
  unfold isStop
  rcases h with ⟨h1, -⟩ | ⟨-, h2, h3⟩
  · rw [h1]
    decide
  · exact fun hs => hs.elim h2 h3

theorem echoes_body (body : List svc.ChangeRequest) (hbody : ∀ r ∈ body, isBodyRequest r) :
    (echoes body).map (fun st => st.State) = List.replicate (interrogations body) svc.Running := by
  induction body with
  | nil => rfl
  | cons b bs ih =>
    have hb := hbody b (List.mem_cons_self _ _)
    have ih2 := ih (fun r hr => hbody r (List.mem_cons_of_mem _ hr))
    simp only [echoes, interrogations] at ih2 ⊢
    rcases hb with ⟨h1, h2⟩ | ⟨h1, -, -⟩
    · simp [List.filterMap_cons, h1, h2, List.countP_cons, List.replicate_succ, ih2]
    · simp [List.filterMap_cons, h1, List.countP_cons, ih2]

theorem echoes_stream (body : List svc.ChangeRequest) (fin : svc.ChangeRequest)
    (hbody : ∀ r ∈ body, isBodyRequest r) (hfin : isStop fin) :
    (echoes (body ++ [fin])).map (fun st => st.State) =
      List.replicate (interrogations body) svc.Running := by
  have hne : fin.Cmd ≠ svc.Interrogate := by
    rcases hfin with h | h <;> rw [h] <;> decide
  have : echoes (body ++ [fin]) = echoes body := by
    simp [echoes, List.filterMap_append, hne]
  rw [this, echoes_body body hbody]

theorem states_initial (c : Config) (rs rest all : List svc.ChangeRequest) (n : Nat) (pc : BgPc)
    (hall : rs ++ rest = all)
    (hE : (echoes all).map (fun st => st.State) = List.replicate n svc.Running)
    (hfull : pc.pastLoop c = true → rest = []) :
    ∃ t, (shapeOf c rs pc).map (fun st => st.State) ++ t = expectedStates n := by
  have hsplit : (echoes rs).map (fun st => st.State) ++ (echoes rest).map (fun st => st.State) =
      List.replicate n svc.Running := by
    rw [← hE, ← hall]
    simp [echoes, List.filterMap_append]
  have hloop : ∃ t, (stStartPending :: stRunning :: echoes rs).map (fun st => st.State) ++ t =
      expectedStates n :=
    ⟨(echoes rest).map (fun st => st.State) ++ [svc.StopPending], by
      simp only [expectedStates, ← hsplit]
      simp [stStartPending, stRunning]⟩
  have hdone : rest = [] → ∃ t, (fullReport rs).map (fun st => st.State) ++ t =
      expectedStates n := by
    intro hr
    refine ⟨[], ?_⟩
    rw [hr] at hsplit
    simp only [expectedStates, ← hsplit]
    simp [fullReport, echoes, stStartPending, stRunning, stStopPending]
  cases pc <;> simp only [shapeOf] <;> (try split) <;>
    first
    | exact hloop
    | exact ⟨_, rfl⟩
    | (apply hdone; apply hfull; simp_all [BgPc.pastLoop])

theorem states_full (c : Config) (rs : List svc.ChangeRequest) (n : Nat) (pc : BgPc)
    (hd : c.isDebug = false) (hi : c.invokes = true) (hrep : pc.reported = true)
    (hE : (echoes rs).map (fun st => st.State) = List.replicate n svc.Running) :
    (shapeOf c rs pc).map (fun st => st.State) = expectedStates n := by
  have hfullrep : (fullReport rs).map (fun st => st.State) = expectedStates n := by
    simp only [expectedStates, ← hE]
    simp [fullReport, stStartPending, stRunning, stStopPending]
  cases pc <;> simp_all [shapeOf, BgPc.reported]

theorem reported_pastLoop {c : Config} {pc : BgPc} (hd : c.isDebug = false)
    (hi : c.invokes = true) (h : pc.reported = true) : pc.pastLoop c = true := by
  cases pc <;> simp_all [BgPc.reported, BgPc.pastLoop]

/-- With both calls succeeding, the value `Run` returns is nil. -/
theorem returned_nil {c : Config} {s : Sys} {r : Option FxError} (hA : InvA c s)
    (hstart : c.startErr = none) (hstop : c.stopErr = none) (hr : s.main = .returned r) :
    r = none ∧ s.calls = [.Start, .Stop] := by
  have hm := hA.mainOk
  simp only [mainOK, hr, resOK, hstart, hstop] at hm
  exact ⟨hm.2.2, hm.1⟩

/-- C1: a managed run in which Start and Stop succeed and the registrar calls
`Execute`, with a request stream (queued or sent later, in any split) made of
`Interrogate` requests carrying `Running` and of unknown command codes, ended by
one `Stop` or `Shutdown`.  With n the number of `Interrogate` requests: what
has been sent is at every point an initial part of `StartPending, Running, n
times Running, StopPending`; once `Execute` has sent `StopPending` it is exactly
that sequence; an execution can only come to rest (no goroutine able to step,
nothing left for the manager to send) when `Run` has returned nil with exactly
that sequence sent; and no execution has more steps than the bound. -/
theorem C1_status_sequence (c : Config) (body : List svc.ChangeRequest)
    (fin : svc.ChangeRequest) (hmode : c.isDebug = false) (hinv : c.invokes = true)
    (hstart : c.startErr = none) (hstop : c.stopErr = none)
    (hreq : c.queued ++ c.later = body ++ [fin])
    (hbody : ∀ r ∈ body, isBodyRequest r) (hfin : isStop fin)
    (sched : List Action) (s : Sys) (h : exec c sched = some s) :
    (∃ t, s.states ++ t = expectedStates (interrogations body)) ∧
    (s.bg.reported = true → s.states = expectedStates (interrogations body)) ∧
    (step c .main s = none → (∀ b, step c (.bg b) s = none) → step c .deliver s = none →
      s.main = .returned none ∧ s.states = expectedStates (interrogations body)) ∧
    sched.length ≤ 25 + 2 * c.later.length + c.queued.length := by
  have hI := inv_of_exec h
  have hK := invK_of_exec hstart h
  have hcons := hI.c.conserve
  rw [hreq] at hcons
  have hE := echoes_stream body fin hbody hfin
  have hrest : s.bg.pastLoop c = true →
      s.requests ++ s.pending = [] ∧ s.handled = body ++ [fin] := by
    intro hp
    obtain ⟨h0, x, hh, hx, -⟩ := hK.ended hp
    have h1 : h0 ++ x :: (s.requests ++ s.pending) = body ++ [fin] := by
      rw [← hcons, hh]
      simp
    obtain ⟨h2, h3, h4⟩ := stop_unique body h0 x fin _ (fun r hr => body_not_stop (hbody r hr))
      hx h1
    exact ⟨h4, by rw [hh, h2, h3]⟩
  have hb2 : s.bg.reported = true → s.states = expectedStates (interrogations body) := by
    intro hrep
    have hp := reported_pastLoop hmode hinv hrep
    unfold Sys.states
    rw [hI.c.shape]
    exact states_full c s.handled _ s.bg hmode hinv hrep (by rw [(hrest hp).2]; exact hE)
  refine ⟨?_, hb2, ?_, exec_length h⟩
  · unfold Sys.states
    rw [hI.c.shape]
    exact states_initial c s.handled (s.requests ++ s.pending) (body ++ [fin]) _ s.bg hcons hE
      (fun hp => (hrest hp).1)
  · intro hm hb hd
    rcases blocked_cases hI hm hb with ⟨r, hr⟩ | ⟨-, -, h1 | h1 | h1⟩
    · have hdone := hI.b.joined r hr
      have hnil := (returned_nil hI.a hstart hstop hr).1
      exact ⟨by rw [hr, hnil], hb2 (by rw [hdone]; rfl)⟩
    · exfalso
      obtain ⟨hloop, hreqs⟩ := h1
      have hpend : s.pending = [] := by
        simp only [step, hI.a.noPanic, Bool.false_eq_true, if_false] at hd
        split at hd
        · cases hd
        · assumption
      rw [hreqs, hpend] at hcons
      simp only [List.append_nil] at hcons
      have hmem : fin ∈ s.handled := by
        rw [hcons]
        simp
      exact hI.c.inLoop hloop fin hmem hfin
    · exfalso
      have hm2 := hI.b.mode
      rw [h1.1] at hm2
      simp [BgPc.modeOK, hmode] at hm2
    · exfalso
      have := h1.2
      simp [Config.bgFires, hinv] at this

theorem C1_status_sequence_witness :
    exec cfgSuccess (schedManaged 11 3 2) = some (endManaged none [.Start, .Stop] true) ∧
    (endManaged none [.Start, .Stop] true).states =
      [svc.StartPending, svc.Running, svc.Running, svc.Running, svc.Running, svc.StopPending] :=
  ⟨rfl, (C1_status_sequence cfgSuccess (testRequests.take 4) { Cmd := svc.Stop } rfl rfl rfl rfl
    rfl (by decide) (Or.inl rfl) (schedManaged 11 3 2) (endManaged none [.Start, .Stop] true)
    rfl).2.1 rfl⟩

/-! ## A registrar that fails before it calls `Execute` -/

theorem no_report {c : Config} {s : Sys} (hI : Inv c s) (hinv : c.invokes = false) :
    s.changes = [] := by
  have h := hI.c.shape
  have hmode := hI.b.mode
  rw [h]
  clear h hI
  cases hbg : s.bg <;> simp_all [shapeOf, BgPc.modeOK]

/-- C8: a managed run whose registrar returns an error without calling
`Execute`.  No status is ever sent; when the registrar closure has ended, all
three gates have fired; and if Start and Stop succeed, `Run` can only return
nil, after exactly the calls Start, Stop, it cannot come to rest before it has
returned (whenever it has not, one of the two goroutines can step), and no
execution has more steps than the bound. -/
theorem C8_registrar_fails_first (c : Config) (hmode : c.isDebug = false)
    (hinv : c.invokes = false) (herr : c.runErr.isSome = true)
    (sched : List Action) (s : Sys) (h : exec c sched = some s) :
    s.changes = [] ∧
    (s.bg = .done → s.SF = true ∧ s.RF = true ∧ s.PF = true) ∧
    (c.startErr = none → c.stopErr = none →
      (∀ r, s.main = .returned r → r = none ∧ s.calls = [.Start, .Stop]) ∧
      (step c .main s = none → (∀ b, step c (.bg b) s = none) →
        s.main = .returned none ∧ s.calls = [.Start, .Stop])) ∧
    sched.length ≤ 25 + 2 * c.later.length + c.queued.length := by
  have hI := inv_of_exec h
  have hfires : c.bgFires = true := by simp [Config.bgFires, herr]
  refine ⟨no_report hI hinv, ?_, ?_, exec_length h⟩
  · intro hd
    exact ⟨hI.b.bgSF (by rw [hd]; exact hfires), hI.b.bgRF (by rw [hd]; exact hfires),
      hI.b.bgPF (by rw [hd]; exact hfires)⟩
  · intro hstart hstop
    refine ⟨fun r hr => returned_nil hI.a hstart hstop hr, ?_⟩
    intro hm hb
    rcases blocked_cases hI hm hb with ⟨r, hr⟩ | ⟨-, -, h1 | h1 | h1⟩
    · obtain ⟨h1, h2⟩ := returned_nil hI.a hstart hstop hr
      exact ⟨by rw [hr, h1], h2⟩
    · exfalso
      have hm2 := hI.b.mode
      rw [h1.1] at hm2
      simp [BgPc.modeOK, hinv] at hm2
    · exfalso
      have hm2 := hI.b.mode
      rw [h1.1] at hm2
      simp [BgPc.modeOK, hmode] at hm2
    · exfalso
      have := h1.2
      simp [hfires] at this

theorem C8_registrar_fails_first_witness :
    exec cfgRunErrorBefore (mainSteps 3 ++ bgSteps 5 ++ mainSteps 4) = some endRunErrorBefore ∧
    endRunErrorBefore.changes = [] ∧
    (endRunErrorBefore.main = .returned none → endRunErrorBefore.calls = [.Start, .Stop]) :=
  ⟨rfl,
    (C8_registrar_fails_first cfgRunErrorBefore rfl rfl rfl
      (mainSteps 3 ++ bgSteps 5 ++ mainSteps 4) endRunErrorBefore rfl).1,
    fun hr => (((C8_registrar_fails_first cfgRunErrorBefore rfl rfl rfl
      (mainSteps 3 ++ bgSteps 5 ++ mainSteps 4) endRunErrorBefore rfl).2.2.1 rfl rfl).1
        none hr).2⟩

/-! ## Debug mode -/

theorem stop_called_observed {c : Config} {s : Sys} (hA : InvA c s)
    (h : AppCall.Stop ∈ s.calls) : s.stopObserved = true := by
  have hm := hA.mainOk
  unfold mainOK at hm
  split at hm <;> (try unfold resOK at hm) <;> (try split at hm) <;> simp_all

/-- C10: a debug-mode run in which Start and Stop succeed.  The registrar is
never called; the stop-request gate is fired only with the started gate fired
(the debug loop is about to fire it only then); Stop is called at most once and
only after the stop-request gate fired; the debug loop has returned only with
the stopped gate fired; `Run` can only return nil, after exactly the calls
Start, Stop and with the debug loop ended; the run can only come to rest when
`Run` has returned, unless it waits for a termination signal that has not been
delivered (no goroutine can step and no signal can arrive only when `Run` has
returned; with a signal in `osSignalChan` from the start, no goroutine can step
only when `Run` has returned); and no execution has more steps than the bound. -/
theorem C10_debug_signal (c : Config) (hmode : c.isDebug = true)
    (hstart : c.startErr = none) (hstop : c.stopErr = none)
    (sched : List Action) (s : Sys) (h : exec c sched = some s) :
    s.svcRunCalls = 0 ∧
    (s.RF = true → s.SF = true) ∧ (s.bg = .dbgSignalStop → s.SF = true) ∧
    (AppCall.Stop ∈ s.calls → s.RF = true) ∧ s.calls.count .Stop ≤ 1 ∧
    (s.bg = .done → s.PF = true) ∧
    (∀ r, s.main = .returned r → r = none ∧ s.calls = [.Start, .Stop] ∧ s.bg = .done) ∧
    (step c .main s = none → (∀ b, step c (.bg b) s = none) → step c .osSignal s = none →
      s.main = .returned none ∧ s.calls = [.Start, .Stop]) ∧
    (c.sigQueued = true → step c .main s = none → (∀ b, step c (.bg b) s = none) →
      s.main = .returned none ∧ s.calls = [.Start, .Stop]) ∧
    sched.length ≤ 25 + 2 * c.later.length + c.queued.length := by
  have hI := inv_of_exec h
  have hfires : c.bgFires = true := by simp [Config.bgFires, hmode]
  have hblocked : step c .main s = none → (∀ b, step c (.bg b) s = none) →
      (s.main = .returned none ∧ s.calls = [.Start, .Stop]) ∨
      (s.bg = .dbgSelect ∧ s.osSignalChan = 0) := by
    intro hm hb
    rcases blocked_cases hI hm hb with ⟨r, hr⟩ | ⟨-, -, h1 | h1 | h1⟩
    · obtain ⟨h1, h2⟩ := returned_nil hI.a hstart hstop hr
      exact Or.inl ⟨by rw [hr, h1], h2⟩
    · exfalso
      have hm2 := hI.b.mode
      rw [h1.1] at hm2
      simp [BgPc.modeOK, hmode] at hm2
    · exact Or.inr h1
    · exfalso
      have := h1.2
      simp [hfires] at this
  refine ⟨hI.c.noSvc hmode, hI.b.startFirst, ?_, ?_, ?_, ?_, ?_, ?_, ?_, exec_length h⟩
  · intro hd
    exact hI.b.bgSF (by rw [hd]; rfl)
  · intro hc
    exact hI.b.obsRF (stop_called_observed hI.a hc)
  · rcases calls_cases hI.a with h1 | h1 | ⟨h1, -⟩ <;> simp [h1]
  · intro hd
    exact hI.b.bgPF (by rw [hd]; exact hfires)
  · intro r hr
    obtain ⟨h1, h2⟩ := returned_nil hI.a hstart hstop hr
    exact ⟨h1, h2, hI.b.joined r hr⟩
  · intro hm hb hsig
    rcases hblocked hm hb with h1 | ⟨h1, h2⟩
    · exact h1
    · exfalso
      have hn := hI.c.notif h1
      simp [step, hI.a.noPanic, hn, h2] at hsig
  · intro hq hm hb
    rcases hblocked hm hb with h1 | ⟨h1, h2⟩
    · exact h1
    · exfalso
      have hk := hI.c.sigKept hq (by rw [h1]; rfl)
      omega

theorem C10_debug_signal_witness :
    exec cfgDebug (schedManaged 4 3 1) = some endDebug ∧
    endDebug.svcRunCalls = 0 ∧
    (endDebug.main = .returned none → endDebug.calls = [.Start, .Stop] ∧ endDebug.bg = .done) :=
  ⟨rfl, (C10_debug_signal cfgDebug rfl rfl rfl (schedManaged 4 3 1) endDebug rfl).1,
    fun hr => ((C10_debug_signal cfgDebug rfl rfl rfl (schedManaged 4 3 1) endDebug
      rfl).2.2.2.2.2.2.1 none hr).2⟩


end Fxsvc
